import Mathlib

/-
  Verification of the room-graph core of the Portal Text Adventure
  (game.py, .history/game_20251109041041.py, .history/ai_adapter_20251109033935.py).

  The Python code is shallowly embedded: JSON room records become structures,
  the rooms.json document becomes a World value, the in-place dict mutations
  become explicit state passing, and every call to the random module or to an
  interactive prompt becomes an explicit parameter.  Fallible Python code
  (uncaught exceptions) is modelled with Except / Option results.
-/

namespace PortalGame

/-- An exit record of a room as stored in rooms.json: a role tag
(home_or_death, existing_or_new or link), a display label, and an optional
link target id, present only on link exits. -/
structure Exit where
  role : String
  label : String
  target : Option Nat
deriving Repr, DecidableEq, Inhabited

/-- A room record as stored in rooms.json. -/
structure Room where
  id : Nat
  title : String
  description : String
  image : String
  coins : Nat
  exits : List Exit
deriving Repr, DecidableEq, Inhabited

/-- The whole persisted world document (rooms.json): the id counter, the
AI-generation counter, the starting room id and the room mapping.  The Python
dict keyed by decimal string ids is modelled as an association list keyed by
the numeric id. -/
structure World where
  next_id : Nat
  total_generated : Nat
  start_room : Nat
  rooms : List (Nat × Room)
deriving Repr, DecidableEq, Inhabited

/-- Lookup in the room mapping: the value stored under a key, mirroring a
Python dict read. -/
def lookupKey : List (Nat × Room) → Nat → Option Room
  | [], _ => none
  | p :: rest, k => if p.1 = k then some p.2 else lookupKey rest k

/-- Assignment in the room mapping, mirroring a Python dict write: replace
the first binding of the key if present, else append a new binding. -/
def setKey : List (Nat × Room) → Nat → Room → List (Nat × Room)
  | [], k, r => [(k, r)]
  | p :: rest, k, r => if p.1 = k then (k, r) :: rest else p :: setKey rest k r

/-- Read a room from the store, as data of rooms followed by str of rid. -/
def World.getRoom (w : World) (rid : Nat) : Option Room :=
  lookupKey w.rooms rid

/-- Write a room into the store under its id key. -/
def World.setRoom (w : World) (rid : Nat) (r : Room) : World :=
  { w with rooms := setKey w.rooms rid r }

/-- The starting room of the default world written by load_data. -/
def firstChamber : Room :=
  { id := 0
    title := "The First Chamber"
    description := "You awaken in a dim chamber with two shimmering portals. The doorway you came through has vanished. Each portal bears a sign written in an unfamiliar script. The air tastes faintly of iron and rain."
    image := ""
    coins := 1
    exits := [⟨"home_or_death", "Left portal", none⟩,
              ⟨"existing_or_new", "Right portal", none⟩] }

/-- The default world written by load_data when no rooms.json exists: the
single First Chamber room with one coin and two exits. -/
def defaultWorld : World :=
  { next_id := 1
    total_generated := 0
    start_room := 0
    rooms := [(0, firstChamber)] }

/-- The structured content returned by the text-generation adapter
(title, description, image_prompt, exit_labels for keys 1 and 2); every
field is optional, matching dict.get with a fallback in the game code. -/
structure RoomJson where
  title : Option String
  description : Option String
  image_prompt : Option String
  exit_label1 : Option String
  exit_label2 : Option String
deriving Repr, DecidableEq, Inhabited

/-- The random draws consumed by one AI room creation: coinFlag is the
outcome of random.random being below 0.25, coinTwo is the choice of 2 over 1
coins, imgOk is whether image generation and saving succeeded. -/
structure AiRandom where
  coinFlag : Bool
  coinTwo : Bool
  imgOk : Bool
deriving Repr, DecidableEq, Inhabited

/-- The default exit pair used when an admin or manual room spec omits
exits. -/
def defaultTwoExits : List Exit :=
  [⟨"home_or_death", "Left", none⟩, ⟨"existing_or_new", "Right", none⟩]

/-- The fixed special room emitted on every tenth generation attempt. -/
def computerRoom (room_id : Nat) : Room :=
  { id := room_id
    title := "Room Creation Computer"
    description := "A humming floor of glass and chrome displays a console of infinite options. Insert coins to create a custom room, or provide admin credentials to bypass."
    image := ""
    coins := 0
    exits := [⟨"home_or_death", "Left Console Gate", none⟩,
              ⟨"existing_or_new", "Right Console Gate", none⟩] }

/-- Outcomes of the Hugging Face text endpoint as seen by hf_generate_text:
a transport or HTTP error raised by raise_for_status, an error field in the
response body, or a response body from which a generated text was extracted. -/
inductive HfTextHttp where
  | httpError : String → HfTextHttp
  | apiError : String → HfTextHttp
  | body : String → HfTextHttp
deriving Repr, DecidableEq, Inhabited

/-- Embedding of ai_adapter.hf_generate_text.  tokenSet tells whether the
HUGGINGFACE_API_KEY is configured; resp is the endpoint outcome; parseResult
models json.loads on the extracted text (some on parse success, none on
parse failure); randTitle models random.randint used by the fallback title.
Errors raised by the Python code become Except.error values. -/
def hf_generate_text (tokenSet : Bool) (resp : HfTextHttp)
    (parseResult : Option RoomJson) (randTitle : Nat) : Except String RoomJson :=
  if tokenSet = false then
    Except.error "HUGGINGFACE_API_KEY not set for Hugging Face provider."
  else
    match resp with
    | HfTextHttp.httpError e => Except.error e
    | HfTextHttp.apiError e => Except.error ("Hugging Face text generation error: " ++ e)
    | HfTextHttp.body text =>
        match parseResult with
        | some parsed => Except.ok parsed
        | none =>
            Except.ok
              { title := some ("Room " ++ toString randTitle)
                description := some text
                image_prompt := some text
                exit_label1 := some "Left"
                exit_label2 := some "Right" }

/-- The admin_room argument of create_new_room in game.py: an optional
override for each field, matching dict.get with fallbacks. -/
structure AdminRoomSpec where
  title : Option String
  description : Option String
  coins : Option Nat
  exits : Option (List Exit)
deriving Repr, DecidableEq, Inhabited

/-- Embedding of create_new_room from game.py.  textResult is the value or
exception of ai.generate_room_text (the call is not wrapped in try, so an
error propagates out and nothing is stored); rnd carries the random draws;
noImages is the NO_IMAGES toggle.  The returned pair is the updated world
and the created room. -/
def create_new_room (data : World) (admin_room : Option AdminRoomSpec)
    (textResult : Except String RoomJson) (rnd : AiRandom) (noImages : Bool) :
    Except String (World × Room) :=
  let room_id := data.next_id
  let data1 : World := { data with next_id := room_id + 1 }
  match admin_room with
  | some ar =>
      let room : Room :=
        { id := room_id
          title := ar.title.getD ("Admin Room " ++ toString room_id)
          description := ar.description.getD ""
          image := ""
          coins := ar.coins.getD 0
          exits := ar.exits.getD defaultTwoExits }
      Except.ok (data1.setRoom room_id room, room)
  | none =>
      match textResult with
      | Except.error e => Except.error e
      | Except.ok room_json =>
          let data2 : World := { data1 with total_generated := data1.total_generated + 1 }
          if data2.total_generated % 10 = 0 then
            let room := computerRoom room_id
            Except.ok (data2.setRoom room_id room, room)
          else
            let coins : Nat := if rnd.coinFlag then (if rnd.coinTwo then 2 else 1) else 0
            let image : String :=
              if !noImages && rnd.imgOk then
                "images/room_" ++ toString room_id ++ ".png"
              else ""
            let room : Room :=
              { id := room_id
                title := room_json.title.getD ("Room " ++ toString room_id)
                description := room_json.description.getD "An indescribable place."
                image := image
                coins := coins
                exits := [⟨"home_or_death", room_json.exit_label1.getD "Left", none⟩,
                          ⟨"existing_or_new", room_json.exit_label2.getD "Right", none⟩] }
            Except.ok (data2.setRoom room_id room, room)

/-- Embedding of create_new_room_ai from the history snapshot; identical to
the AI path of create_new_room in game.py apart from the image saving
helper. -/
def create_new_room_ai (data : World) (textResult : Except String RoomJson)
    (rnd : AiRandom) (noImages : Bool) : Except String (World × Room) :=
  let room_id := data.next_id
  let data1 : World := { data with next_id := room_id + 1 }
  match textResult with
  | Except.error e => Except.error e
  | Except.ok room_json =>
      let data2 : World := { data1 with total_generated := data1.total_generated + 1 }
      if data2.total_generated % 10 = 0 then
        let room := computerRoom room_id
        Except.ok (data2.setRoom room_id room, room)
      else
        let coins : Nat := if rnd.coinFlag then (if rnd.coinTwo then 2 else 1) else 0
        let image : String :=
          if !noImages && rnd.imgOk then
            "images/room_" ++ toString room_id ++ ".png"
          else ""
        let room : Room :=
          { id := room_id
            title := room_json.title.getD ("Room " ++ toString room_id)
            description := room_json.description.getD "An indescribable place."
            image := image
            coins := coins
            exits := [⟨"home_or_death", room_json.exit_label1.getD "Left", none⟩,
                      ⟨"existing_or_new", room_json.exit_label2.getD "Right", none⟩] }
        Except.ok (data2.setRoom room_id room, room)

/-- The role choice offered by the manual room creation prompt. -/
inductive RoleChoice where
  | home_or_death
  | existing_or_new
  | link
deriving Repr, DecidableEq, Inhabited

/-- One exit configured through the manual creation prompts: a role from the
fixed choice list, a label, and a target id consulted only for link roles. -/
structure ExitConfig where
  role : RoleChoice
  label : String
  target : Nat
deriving Repr, DecidableEq, Inhabited

/-- Build the exit record the manual prompt loop appends for one configured
exit: link roles carry the prompted target, the other roles carry none. -/
def ExitConfig.toExit (c : ExitConfig) : Exit :=
  match c.role with
  | RoleChoice.link => ⟨"link", c.label, some c.target⟩
  | RoleChoice.home_or_death => ⟨"home_or_death", c.label, none⟩
  | RoleChoice.existing_or_new => ⟨"existing_or_new", c.label, none⟩

/-- The manual argument of create_manual_room: an optional override per
field, matching dict.get with fallbacks; image is the image source path. -/
structure ManualSpec where
  title : Option String
  description : Option String
  coins : Option Nat
  exits : Option (List Exit)
  image : Option String
deriving Repr, DecidableEq, Inhabited

/-- The interactive prompt answers consumed by create_manual_room when no
manual record is supplied: the prompt loop always configures exactly two
exits. -/
structure ManualPrompts where
  title : String
  description : String
  coins : Nat
  exit1 : ExitConfig
  exit2 : ExitConfig
  image_path : String
deriving Repr, DecidableEq, Inhabited

/-- Embedding of create_manual_room from the history snapshot.  The manual
record, when present, supplies the fields with dict.get fallbacks; otherwise
the interactive prompts do.  imgOk tells whether process_and_save_image
succeeded for a non-empty image path; on failure the image field stays
empty, mirroring the except branch. -/
def create_manual_room (data : World) (manual : Option ManualSpec)
    (prompts : ManualPrompts) (imgOk : Bool) : World × Room :=
  let room_id := data.next_id
  let data1 : World := { data with next_id := room_id + 1 }
  let title : String :=
    match manual with
    | some m => m.title.getD ("Room " ++ toString room_id)
    | none => prompts.title
  let description : String :=
    match manual with
    | some m => m.description.getD ""
    | none => prompts.description
  let coins : Nat :=
    match manual with
    | some m => m.coins.getD 0
    | none => prompts.coins
  let exits : List Exit :=
    match manual with
    | some m => m.exits.getD defaultTwoExits
    | none => [prompts.exit1.toExit, prompts.exit2.toExit]
  let image_path : String :=
    match manual with
    | some m => m.image.getD ""
    | none => prompts.image_path
  let image : String :=
    if image_path ≠ "" ∧ imgOk = true then
      "images/room_" ++ toString room_id ++ ".png"
    else ""
  let room : Room :=
    { id := room_id, title := title, description := description,
      image := image, coins := coins, exits := exits }
  (data1.setRoom room_id room, room)

/-- The prompt answers consumed by design_room_from_current: title,
description, coin count, the label for the appended exit of the current
room, and the raw image input string. -/
structure DesignPrompts where
  title : String
  description : String
  coins : Nat
  label_for_current_exit : String
  img_input : String
deriving Repr, DecidableEq, Inhabited

/-- Embedding of design_room_from_current from the history snapshot.
imgResult models the combined outcome of the upload handshake or the
path-or-URL processing: some saved path on success, none on timeout or
failure.  A missing current room raises KeyError in Python, modelled as
none.  The current room record is read once at entry and its exit list is
extended at the end, mirroring the in-place dict mutation. -/
def design_room_from_current (data : World) (current_id : Nat)
    (prompts : DesignPrompts) (imgResult : Option String) : Option (World × Room) :=
  match data.getRoom current_id with
  | none => none
  | some current_room =>
      let new_room_manual : ManualSpec :=
        { title := some prompts.title
          description := some prompts.description
          coins := some prompts.coins
          exits := some [⟨"link", "Back to " ++ current_room.title, some current_id⟩,
                         ⟨"existing_or_new", "Right (mysterious)", none⟩]
          image := some "" }
      let created := create_manual_room data (some new_room_manual) default false
      let data1 := created.1
      let new_room := created.2
      let afterImage : World × Room :=
        if prompts.img_input ≠ "" then
          match imgResult with
          | some saved =>
              let nr2 : Room := { new_room with image := saved }
              (data1.setRoom new_room.id nr2, nr2)
          | none => (data1, new_room)
        else (data1, new_room)
      let data2 := afterImage.1
      let new_room2 := afterImage.2
      let new_exit : Exit := ⟨"link", prompts.label_for_current_exit, some new_room2.id⟩
      let current_room2 : Room :=
        { current_room with exits :=
            if current_room.exits.length = 0 then [new_exit]
            else current_room.exits ++ [new_exit] }
      some (data2.setRoom current_id current_room2, new_room2)

/-- The prompt answers consumed by run_admin_create: it always assembles a
two-exit spec before delegating to the manual path. -/
structure AdminPrompts where
  title : String
  description : String
  llabel : String
  rlabel : String
  coins_here : Nat
deriving Repr, DecidableEq, Inhabited

/-- Embedding of run_admin_create from the history snapshot: build the
admin_room spec from the prompts and delegate to create_manual_room.  The
player coin count is passed through unchanged. -/
def run_admin_create (data : World) (player_coins : Nat) (p : AdminPrompts) :
    (World × Room) × Nat :=
  let admin_room : ManualSpec :=
    { title := some p.title
      description := some p.description
      coins := some p.coins_here
      exits := some [⟨"home_or_death", p.llabel, none⟩,
                     ⟨"existing_or_new", p.rlabel, none⟩]
      image := none }
  (create_manual_room data (some admin_room) default false, player_coins)

/-- Embedding of link_exits_interactive from the history snapshot: overwrite
the role and target of exit 1 or 2 of an existing room.  A missing room id
is answered with a message and no change; an out-of-range exit index raises
IndexError before any assignment, so the store is also unchanged. -/
def link_exits_interactive (data : World) (rid : Nat) (ex_two : Bool)
    (target : Nat) : World :=
  match data.getRoom rid with
  | none => data
  | some room =>
      let i : Nat := if ex_two then 1 else 0
      if h : i < room.exits.length then
        let e := room.exits.get ⟨i, h⟩
        let room2 : Room :=
          { room with exits := room.exits.set i { e with role := "link", target := some target } }
        data.setRoom rid room2
      else data

/-- Embedding of the coin pickup at the top of the play loop: when the
current room holds coins they are added to the player total and the room
coin count is zeroed and persisted; otherwise nothing changes.  A missing
current id would raise KeyError, modelled as no change. -/
def coin_pickup_step (data : World) (current_id : Nat) (player_coins : Nat) :
    World × Nat :=
  match data.getRoom current_id with
  | none => (data, player_coins)
  | some room =>
      if room.coins > 0 then
        (data.setRoom current_id { room with coins := 0 }, player_coins + room.coins)
      else (data, player_coins)

/-- Embedding of randomized_exits_for_display from the history snapshot:
order is the shuffled index list produced by random.shuffle over the range
of exit positions; the result maps the display keys 1, 2, ... to the exit
records in shuffled order.  The room record itself is read only. -/
def randomized_exits_for_display (room : Room) (order : List Nat) :
    List (String × Exit) :=
  (order.enum).map (fun p => (toString (p.1 + 1), room.exits.getD p.2 default))

/-- Embedding of pick_existing_room: collect the ids of all rooms other
than exclude_id, return none when there are none, else return the room
stored under the id selected by random.choice, modelled by the index
choice reduced modulo the candidate count. -/
def pick_existing_room (data : World) (exclude_id : Nat) (choice : Nat) :
    Option Room :=
  let ids : List Nat := (data.rooms.map Prod.fst).filter (fun k => k != exclude_id)
  match ids.get? (choice % ids.length) with
  | some picked => data.getRoom picked
  | none => none

/-- The terminal or movement outcome of resolving one chosen exit in the
play loop. -/
inductive Outcome where
  | move : Nat → Outcome
  | win : Outcome
  | death : Outcome
  | fatal : String → Outcome
deriving Repr, DecidableEq, Inhabited

/-- The random draws and provider outcome available to one exit
resolution: the win flip for home_or_death, the generate flip for
existing_or_new, the random.choice index for pick_existing_room, and the
inputs of a possible create_new_room_ai call. -/
structure ResolveRandom where
  homeWin : Bool
  genNew : Bool
  pickChoice : Nat
  textResult : Except String RoomJson
  aiRnd : AiRandom
  noImages : Bool

/-- The result of resolving one chosen exit: the world after the step, the
outcome, and whether the broken-link error message was printed. -/
structure StepResult where
  world : World
  outcome : Outcome
  brokenLinkMsg : Bool
deriving Repr, DecidableEq

/-- The generate-and-move tail shared by three branches of the play loop:
call create_new_room_ai and move into the created room; a propagated
generation exception is fatal and nothing is persisted. -/
def genMove (data : World) (r : ResolveRandom) (broken : Bool) : StepResult :=
  match create_new_room_ai data r.textResult r.aiRnd r.noImages with
  | Except.ok pr => ⟨pr.1, Outcome.move pr.2.id, broken⟩
  | Except.error e => ⟨data, Outcome.fatal e, broken⟩

/-- The role dispatch chain of the play loop that runs after the link
clause: home_or_death flips the win coin, existing_or_new flips the
generate coin and otherwise teleports to a random other room, and every
other role falls into the default teleport-or-generate branch.  broken
records that the broken-link message was printed before reaching this
chain. -/
def resolve_rest (data : World) (room : Room) (chosen : Exit)
    (r : ResolveRandom) (broken : Bool) : StepResult :=
  if chosen.role == "home_or_death" then
    if r.homeWin then ⟨data, Outcome.win, broken⟩
    else ⟨data, Outcome.death, broken⟩
  else if chosen.role == "existing_or_new" then
    if r.genNew then genMove data r broken
    else
      match pick_existing_room data room.id r.pickChoice with
      | some pick => ⟨data, Outcome.move pick.id, broken⟩
      | none => genMove data r broken
  else
    match pick_existing_room data room.id r.pickChoice with
    | some pick => ⟨data, Outcome.move pick.id, broken⟩
    | none => genMove data r broken

/-- Embedding of the exit-resolution block of play_game_loop in the history
snapshot (the body handling a chosen display exit).  A link exit whose
target is present moves there directly; a link exit with an absent target
prints the broken-link message and then, lacking a continue statement,
falls through into the role dispatch chain. -/
def resolve_exit (data : World) (room : Room) (chosen : Exit)
    (r : ResolveRandom) : StepResult :=
  match chosen.target with
  | some tgt =>
      if chosen.role == "link" then
        if (data.getRoom tgt).isSome then ⟨data, Outcome.move tgt, false⟩
        else resolve_rest data room chosen r true
      else resolve_rest data room chosen r false
  | none => resolve_rest data room chosen r false

/-- One world-mutating operation reachable from the interactive surface:
an AI generation (from the existing_or_new branch), a manual editor
creation, an admin creation at the computer room, the design command (with
its play-loop gate), a coin pickup on room entry, and the editor operation
overwriting one exit into a link. -/
inductive Op where
  | opAi : Except String RoomJson → AiRandom → Bool → Op
  | opManual : ManualPrompts → Bool → Op
  | opAdmin : AdminPrompts → Op
  | opDesign : Nat → DesignPrompts → Option String → Op
  | opPickup : Nat → Op
  | opLink : Nat → Bool → Nat → Op

/-- The world after one operation.  A propagated AI exception, a failed
design gate or a missing room leave the persisted world unchanged. -/
def step (w : World) : Op → World
  | Op.opAi textResult rnd noImages =>
      match create_new_room_ai w textResult rnd noImages with
      | Except.ok pr => pr.1
      | Except.error _ => w
  | Op.opManual prompts imgOk => (create_manual_room w none prompts imgOk).1
  | Op.opAdmin p => (run_admin_create w 0 p).1.1
  | Op.opDesign cid prompts imgResult =>
      match w.getRoom cid with
      | some room =>
          if room.exits.length = 1 then
            match design_room_from_current w cid prompts imgResult with
            | some pr => pr.1
            | none => w
          else w
      | none => w
  | Op.opPickup rid => (coin_pickup_step w rid 0).1
  | Op.opLink rid ex_two target => link_exits_interactive w rid ex_two target

/-- The world after a sequence of operations. -/
def run : World → List Op → World
  | w, [] => w
  | w, op :: ops => run (step w op) ops

/-- Whether an operation creates a room in the given world: creations
happen on the AI path when text generation succeeds, on every manual and
admin creation, and on a design command that passes its gate. -/
def opCreates (w : World) : Op → Bool
  | Op.opAi textResult _ _ =>
      match textResult with
      | Except.ok _ => true
      | Except.error _ => false
  | Op.opManual _ _ => true
  | Op.opAdmin _ => true
  | Op.opDesign cid _ _ =>
      match w.getRoom cid with
      | some room => room.exits.length == 1
      | none => false
  | Op.opPickup _ => false
  | Op.opLink _ _ _ => false

/-- The ids assigned to created rooms along a run, in creation order:
every creation path reads next_id at entry. -/
def trace : World → List Op → List Nat
  | _, [] => []
  | w, op :: ops =>
      (if opCreates w op then [w.next_id] else []) ++ trace (step w op) ops

section StoreLemmas

/-- Reading a key just written returns the written room. -/
theorem lookupKey_setKey_self (rs : List (Nat × Room)) (k : Nat) (r : Room) :
    lookupKey (setKey rs k r) k = some r := by
  induction rs with
  | nil => simp [setKey, lookupKey]
  | cons p rest ih =>
      by_cases h : p.1 = k
      · simp [setKey, lookupKey, h]
      · simp [setKey, lookupKey, h, ih]

/-- Writing one key does not change the value read at another key. -/
theorem lookupKey_setKey_ne (rs : List (Nat × Room)) (k k' : Nat) (r : Room)
    (h : k' ≠ k) : lookupKey (setKey rs k r) k' = lookupKey rs k' := by
  have hne : ¬ (k = k') := fun hkk => h hkk.symm
  induction rs with
  | nil => simp [setKey, lookupKey, hne]
  | cons p rest ih =>
      by_cases hp : p.1 = k
      · have hp' : ¬ (p.1 = k') := by rw [hp]; exact hne
        simp [setKey, lookupKey, hp, hne, hp']
      · by_cases hq : p.1 = k'
        · simp [setKey, lookupKey, hp, hq, h]
        · simp [setKey, lookupKey, hp, hq, ih]

/-- A successful lookup names a binding of the list. -/
theorem mem_of_lookupKey (rs : List (Nat × Room)) (k : Nat) (r : Room)
    (h : lookupKey rs k = some r) : (k, r) ∈ rs := by
  induction rs with
  | nil => simp [lookupKey] at h
  | cons p rest ih =>
      obtain ⟨a, b⟩ := p
      by_cases hp : a = k
      · simp [lookupKey, hp] at h
        subst hp
        subst h
        exact List.mem_cons_self _ _
      · simp [lookupKey, hp] at h
        exact List.mem_cons_of_mem _ (ih h)

/-- Every binding after a write is an old binding or the written one. -/
theorem mem_setKey (rs : List (Nat × Room)) (k : Nat) (r : Room) (p : Nat × Room)
    (h : p ∈ setKey rs k r) : p ∈ rs ∨ p = (k, r) := by
  induction rs with
  | nil =>
      simp [setKey] at h
      exact Or.inr h
  | cons q rest ih =>
      by_cases hq : q.1 = k
      · simp only [setKey, hq, if_pos, List.mem_cons] at h
        rcases h with h | h
        · exact Or.inr h
        · exact Or.inl (List.mem_cons_of_mem _ h)
      · simp only [setKey, hq, if_neg, ite_false, List.mem_cons] at h
        rcases h with h | h
        · exact Or.inl (by rw [h]; exact List.mem_cons_self _ _)
        · rcases ih h with h' | h'
          · exact Or.inl (List.mem_cons_of_mem _ h')
          · exact Or.inr h'

/-- Reading a room and then reading it again through getRoom. -/
theorem getRoom_setRoom_self (w : World) (k : Nat) (r : Room) :
    (w.setRoom k r).getRoom k = some r :=
  lookupKey_setKey_self w.rooms k r

/-- Writing one room does not change reads of other ids. -/
theorem getRoom_setRoom_ne (w : World) (k k' : Nat) (r : Room) (h : k' ≠ k) :
    (w.setRoom k r).getRoom k' = w.getRoom k' :=
  lookupKey_setKey_ne w.rooms k k' r h

/-- A key of the mapping can always be read back to some room. -/
theorem lookupKey_isSome (rs : List (Nat × Room)) (k : Nat)
    (h : k ∈ rs.map Prod.fst) : ∃ r, lookupKey rs k = some r := by
  induction rs with
  | nil => simp at h
  | cons p rest ih =>
      by_cases hp : p.1 = k
      · exact ⟨p.2, by simp [lookupKey, hp]⟩
      · rw [List.map_cons, List.mem_cons] at h
        rcases h with h | h
        · exact absurd h.symm hp
        · obtain ⟨r, hr⟩ := ih h
          exact ⟨r, by simp [lookupKey, hp, hr]⟩

end StoreLemmas

/-- The store is key consistent when the id field of every room equals the
key it is stored under; every write in the game stores a room under its own
id. -/
def keysConsistent (w : World) : Prop := ∀ p ∈ w.rooms, p.2.id = p.1

/-- Claim C9: pick_existing_room returns none exactly when every stored
room key equals exclude_id, and any returned room is stored in the world
under a key other than exclude_id and itself has an id other than
exclude_id. -/
theorem pick_existing_room_spec (w : World) (exclude_id choice : Nat)
    (hw : keysConsistent w) :
    (pick_existing_room w exclude_id choice = none ↔
      ∀ p ∈ w.rooms, p.1 = exclude_id) ∧
    (∀ r, pick_existing_room w exclude_id choice = some r →
      (∃ k, (k, r) ∈ w.rooms ∧ k ≠ exclude_id) ∧ r.id ≠ exclude_id) := by
  have key : pick_existing_room w exclude_id choice =
      (match ((w.rooms.map Prod.fst).filter (fun k => k != exclude_id)).get?
          (choice % ((w.rooms.map Prod.fst).filter (fun k => k != exclude_id)).length) with
       | some picked => w.getRoom picked
       | none => none) := rfl
  rcases hl : (w.rooms.map Prod.fst).filter (fun k => k != exclude_id) with _ | ⟨a, l⟩
  · have hres : pick_existing_room w exclude_id choice = none := by
      rw [key, hl]
      simp
    constructor
    · constructor
      · intro _ p hp
        by_contra hne
        have hmem : p.1 ∈ (w.rooms.map Prod.fst).filter (fun k => k != exclude_id) := by
          rw [List.mem_filter]
          exact ⟨List.mem_map_of_mem Prod.fst hp, by simpa using hne⟩
        rw [hl] at hmem
        simp at hmem
      · intro _
        exact hres
    · intro r hr
      rw [hres] at hr
      cases hr
  · have hlen : 0 < ((w.rooms.map Prod.fst).filter (fun k => k != exclude_id)).length := by
      rw [hl]
      simp
    have hlt : choice % ((w.rooms.map Prod.fst).filter (fun k => k != exclude_id)).length <
        ((w.rooms.map Prod.fst).filter (fun k => k != exclude_id)).length :=
      Nat.mod_lt _ hlen
    obtain ⟨k, hk⟩ : ∃ k, ((w.rooms.map Prod.fst).filter (fun k => k != exclude_id)).get?
        (choice % ((w.rooms.map Prod.fst).filter (fun k => k != exclude_id)).length) = some k := by
      rw [List.get?_eq_get hlt]
      exact ⟨_, rfl⟩
    have hkmem : k ∈ (w.rooms.map Prod.fst).filter (fun k => k != exclude_id) :=
      List.get?_mem hk
    rw [List.mem_filter] at hkmem
    have hkne : k ≠ exclude_id := by simpa using hkmem.2
    obtain ⟨r0, hr0⟩ := lookupKey_isSome w.rooms k hkmem.1
    have hres : pick_existing_room w exclude_id choice = some r0 := by
      rw [key, hk]
      exact hr0
    constructor
    · constructor
      · intro hnone
        rw [hres] at hnone
        cases hnone
      · intro hall
        have hamem : a ∈ (w.rooms.map Prod.fst).filter (fun k => k != exclude_id) := by
          rw [hl]
          exact List.mem_cons_self _ _
        rw [List.mem_filter] at hamem
        obtain ⟨p, hp, hpa⟩ := List.mem_map.mp hamem.1
        have : a = exclude_id := hpa ▸ hall p hp
        rw [this] at hamem
        simp at hamem
    · intro r hr
      rw [hres] at hr
      injection hr with hr
      subst hr
      have hmem : (k, r0) ∈ w.rooms := mem_of_lookupKey w.rooms k r0 hr0
      refine ⟨⟨k, hmem, hkne⟩, ?_⟩
      rw [hw (k, r0) hmem]
      exact hkne

/-- Witness for claim C9 at the default world. -/
theorem pick_existing_room_spec_witness :
    (pick_existing_room defaultWorld 0 0 = none ↔
      ∀ p ∈ defaultWorld.rooms, p.1 = 0) ∧
    (∀ r, pick_existing_room defaultWorld 0 0 = some r →
      (∃ k, (k, r) ∈ defaultWorld.rooms ∧ k ≠ 0) ∧ r.id ≠ 0) :=
  pick_existing_room_spec defaultWorld 0 0
    (show ∀ p ∈ defaultWorld.rooms, p.2.id = p.1 by decide)

/-- Claim C7: entering a room holding a positive number of coins adds
exactly that number to the player total and zeroes the persisted room coin
count, and entering the same room again changes nothing. -/
theorem coin_pickup_once (data : World) (cid pc : Nat) (room : Room)
    (hr : data.getRoom cid = some room) (hpos : 0 < room.coins) :
    (coin_pickup_step data cid pc).2 = pc + room.coins ∧
    (coin_pickup_step data cid pc).1.getRoom cid = some { room with coins := 0 } ∧
    coin_pickup_step (coin_pickup_step data cid pc).1 cid (coin_pickup_step data cid pc).2 =
      ((coin_pickup_step data cid pc).1, (coin_pickup_step data cid pc).2) := by
  have hstep : coin_pickup_step data cid pc =
      (data.setRoom cid { room with coins := 0 }, pc + room.coins) := by
    rw [coin_pickup_step, hr]
    simp [hpos]
  have hget : (data.setRoom cid { room with coins := 0 }).getRoom cid =
      some { room with coins := 0 } := getRoom_setRoom_self data cid _
  refine ⟨by rw [hstep], by rw [hstep]; exact hget, ?_⟩
  rw [hstep]
  rw [coin_pickup_step, hget]
  simp

/-- Witness for claim C7 at the default world, whose starting room holds
one coin. -/
theorem coin_pickup_once_witness :
    (coin_pickup_step defaultWorld 0 0).2 = 0 + 1 ∧
    (coin_pickup_step defaultWorld 0 0).1.getRoom 0 =
      some { (defaultWorld.getRoom 0).get rfl with coins := 0 } ∧
    coin_pickup_step (coin_pickup_step defaultWorld 0 0).1 0 (coin_pickup_step defaultWorld 0 0).2 =
      ((coin_pickup_step defaultWorld 0 0).1, (coin_pickup_step defaultWorld 0 0).2) :=
  coin_pickup_once defaultWorld 0 0 ((defaultWorld.getRoom 0).get rfl) rfl (by decide)

/-- Reading every position of a list in order reproduces the list. -/
theorem map_getD_range (l : List Exit) (d : Exit) :
    (List.range l.length).map (fun i => l.getD i d) = l := by
  induction l with
  | nil => simp
  | cons a t ih =>
      rw [List.length_cons, List.range_succ_eq_map, List.map_cons, List.map_map]
      have hc : ((fun i => (a :: t).getD i d) ∘ Nat.succ) = (fun i => t.getD i d) := by
        funext i
        simp
      rw [List.getD_cons_zero, hc, ih]

/-- Claim C8: the display mapping is built from the room record without
writing to it, and for every shuffle order the mapped exit records are
exactly the stored exits rearranged, so repeated display shuffles can vary
only the display-key-to-exit assignment, never the stored sequence. -/
theorem display_shuffle_nondestructive (room : Room) (order : List Nat)
    (horder : order.Perm (List.range room.exits.length)) :
    ((randomized_exits_for_display room order).map Prod.snd).Perm room.exits := by
  have h1 : (randomized_exits_for_display room order).map Prod.snd =
      order.map (fun i => room.exits.getD i default) := by
    rw [randomized_exits_for_display, List.map_map]
    have h2 : (Prod.snd ∘ fun p : Nat × Nat =>
        (toString (p.1 + 1), room.exits.getD p.2 default)) =
        (fun i => room.exits.getD i default) ∘ Prod.snd := rfl
    rw [h2, ← List.map_map, List.enum_map_snd]
  rw [h1]
  have h3 : (order.map (fun i => room.exits.getD i default)).Perm
      ((List.range room.exits.length).map (fun i => room.exits.getD i default)) :=
    horder.map _
  rw [map_getD_range] at h3
  exact h3

/-- Witness for claim C8 on the starting room with the reversed order. -/
theorem display_shuffle_nondestructive_witness :
    ((randomized_exits_for_display ((defaultWorld.getRoom 0).get rfl) [1, 0]).map
      Prod.snd).Perm ((defaultWorld.getRoom 0).get rfl).exits :=
  display_shuffle_nondestructive ((defaultWorld.getRoom 0).get rfl) [1, 0] (by decide)

/-- A one-exit room whose only exit is a link with a dangling target. -/
def brokenLinkRoom : Room :=
  { id := 0, title := "Chamber of Doors", description := "A chamber.",
    image := "", coins := 0, exits := [⟨"link", "A sealed door", some 99⟩] }

/-- A second room so that the store holds a candidate teleport target. -/
def otherRoom : Room :=
  { id := 1, title := "Side Room", description := "Another chamber.",
    image := "", coins := 0, exits := defaultTwoExits }

/-- A world where the current room carries a dangling link to id 99. -/
def brokenLinkWorld : World :=
  { next_id := 2, total_generated := 0, start_room := 0,
    rooms := [(0, brokenLinkRoom), (1, otherRoom)] }

/-- Fixed random draws for a single resolution step. -/
def stubRandom : ResolveRandom :=
  { homeWin := true, genNew := false, pickChoice := 0,
    textResult := Except.error "provider down",
    aiRnd := ⟨false, false, false⟩, noImages := true }

/-- Claim C1 failing input: resolving the dangling link exit of room 0 in
brokenLinkWorld prints the broken-link message but then, because the error
branch lacks a continue, falls through to the default role dispatch and
moves the player to room 1 instead of leaving the position unchanged. -/
theorem broken_link_falls_through :
    resolve_exit brokenLinkWorld brokenLinkRoom ⟨"link", "A sealed door", some 99⟩
      stubRandom = ⟨brokenLinkWorld, Outcome.move 1, true⟩ := rfl

/-- Provider content that reproduces the special room record verbatim. -/
def mimicJson : RoomJson :=
  { title := some "Room Creation Computer"
    description := some "A humming floor of glass and chrome displays a console of infinite options. Insert coins to create a custom room, or provide admin credentials to bypass."
    image_prompt := none
    exit_label1 := some "Left Console Gate"
    exit_label2 := some "Right Console Gate" }

/-- Claim C4 counterexample: on the first generation attempt from the
default world (post-increment counter 1, not a multiple of 10) a provider
output that mimics the special room content makes the created room equal the
Room Creation Computer record, refuting the never-otherwise half of the
claim read as record equality. -/
theorem computer_room_off_cadence :
    (create_new_room defaultWorld none (Except.ok mimicJson) ⟨false, false, false⟩
      true).map Prod.snd = Except.ok (computerRoom 1) ∧
    (defaultWorld.total_generated + 1) % 10 ≠ 0 :=
  ⟨rfl, by decide⟩

/-- Claim C4 amended: the special-room branch is taken exactly on attempts
where the post-increment counter is a multiple of 10; whenever the provider
title differs from the special title, record equality with the special room
holds exactly on those attempts. -/
theorem computer_room_cadence (data : World) (json : RoomJson) (rnd : AiRandom)
    (ni : Bool) (t : String) (pr : World × Room)
    (ht : json.title = some t) (hne : t ≠ "Room Creation Computer")
    (h : create_new_room data none (Except.ok json) rnd ni = Except.ok pr) :
    (pr.2 = computerRoom data.next_id ↔ (data.total_generated + 1) % 10 = 0) := by
  simp only [create_new_room] at h
  split at h
  · next hten =>
      injection h with h
      subst h
      simpa using hten
  · next hten =>
      injection h with h
      subst h
      constructor
      · intro heq
        exfalso
        have hti := congrArg Room.title heq
        simp [computerRoom, ht] at hti
        exact hne hti
      · intro hc
        exfalso
        exact hten (by simpa using hc)

/-- Ordinary provider content for a witness instance. -/
def plainJson : RoomJson :=
  { title := some "Quiet Study"
    description := some "Shelves of unread books line the walls."
    image_prompt := none
    exit_label1 := none
    exit_label2 := none }

/-- The room created from plainJson on the first attempt. -/
def plainRoom : Room :=
  { id := 1, title := "Quiet Study",
    description := "Shelves of unread books line the walls.", image := "",
    coins := 0, exits := [⟨"home_or_death", "Left", none⟩,
                          ⟨"existing_or_new", "Right", none⟩] }

/-- The world after creating plainRoom from the default world. -/
def plainWorld : World :=
  { next_id := 2, total_generated := 1, start_room := 0,
    rooms := [(0, firstChamber), (1, plainRoom)] }

/-- Witness for claim C4 amended on the first attempt from the default
world. -/
theorem computer_room_cadence_witness :
    (((plainWorld, plainRoom) : World × Room).2 = computerRoom defaultWorld.next_id ↔
      (defaultWorld.total_generated + 1) % 10 = 0) :=
  computer_room_cadence defaultWorld plainJson ⟨false, false, false⟩ true
    "Quiet Study" (plainWorld, plainRoom) rfl (by decide) rfl

/-- Claim C6 counterexample: with the Hugging Face key unset the adapter
raises, create_new_room propagates the exception, and no room is created,
so an unauthenticated provider failure is fatal rather than recovered. -/
theorem provider_failure_fatal :
    create_new_room defaultWorld none
      (hf_generate_text false (HfTextHttp.body "raw output") none 0)
      ⟨false, false, false⟩ true =
    Except.error "HUGGINGFACE_API_KEY not set for Hugging Face provider." := rfl

/-- Claim C6 amended: a missing key or transport error makes
hf_generate_text raise and create_new_room propagate the error with no room
created, while unparseable provider output is recovered inside the adapter
with fallback content and the room is still created, carrying the raw text
as its description. -/
theorem provider_failure_amended :
    (∀ resp p n, hf_generate_text false resp p n =
      Except.error "HUGGINGFACE_API_KEY not set for Hugging Face provider.") ∧
    (∀ p n e, hf_generate_text true (HfTextHttp.httpError e) p n = Except.error e) ∧
    (∀ (data : World) rnd ni e, create_new_room data none (Except.error e) rnd ni =
      Except.error e) ∧
    (∀ text n, hf_generate_text true (HfTextHttp.body text) none n =
      Except.ok { title := some ("Room " ++ toString n), description := some text,
                  image_prompt := some text, exit_label1 := some "Left",
                  exit_label2 := some "Right" }) ∧
    (∀ (data : World) rnd ni text n pr, (data.total_generated + 1) % 10 ≠ 0 →
      create_new_room data none (hf_generate_text true (HfTextHttp.body text) none n)
        rnd ni = Except.ok pr → pr.2.description = text) := by
  refine ⟨fun resp p n => rfl, fun p n e => rfl, fun data rnd ni e => rfl,
    fun text n => rfl, fun data rnd ni text n pr hten h => ?_⟩
  rw [show hf_generate_text true (HfTextHttp.body text) none n =
      Except.ok { title := some ("Room " ++ toString n), description := some text,
                  image_prompt := some text, exit_label1 := some "Left",
                  exit_label2 := some "Right" } from rfl] at h
  simp only [create_new_room] at h
  split at h
  · next hten2 => exact absurd hten2 hten
  · next hten2 =>
      injection h with h
      subst h
      simp

/-- The fallback room created from unparseable output on the first attempt. -/
def fallbackRoom : Room :=
  { id := 1, title := "Room 7", description := "a story about a room",
    image := "", coins := 0,
    exits := [⟨"home_or_death", "Left", none⟩, ⟨"existing_or_new", "Right", none⟩] }

/-- The world after creating fallbackRoom from the default world. -/
def fallbackWorld : World :=
  { next_id := 2, total_generated := 1, start_room := 0,
    rooms := [(0, firstChamber), (1, fallbackRoom)] }

/-- Witness for claim C6 amended at concrete inputs for every conjunct. -/
theorem provider_failure_amended_witness :
    hf_generate_text false (HfTextHttp.body "x") none 0 =
      Except.error "HUGGINGFACE_API_KEY not set for Hugging Face provider." ∧
    hf_generate_text true (HfTextHttp.httpError "connection refused") none 1 =
      Except.error "connection refused" ∧
    create_new_room defaultWorld none (Except.error "boom") ⟨false, false, false⟩ true =
      Except.error "boom" ∧
    hf_generate_text true (HfTextHttp.body "a story about a room") none 7 =
      Except.ok { title := some "Room 7", description := some "a story about a room",
                  image_prompt := some "a story about a room",
                  exit_label1 := some "Left", exit_label2 := some "Right" } ∧
    ((fallbackWorld, fallbackRoom) : World × Room).2.description = "a story about a room" :=
  ⟨provider_failure_amended.1 (HfTextHttp.body "x") none 0,
   provider_failure_amended.2.1 none 1 "connection refused",
   provider_failure_amended.2.2.1 defaultWorld ⟨false, false, false⟩ true "boom",
   provider_failure_amended.2.2.2.1 "a story about a room" 7,
   provider_failure_amended.2.2.2.2 defaultWorld ⟨false, false, false⟩ true
     "a story about a room" 7 (fallbackWorld, fallbackRoom) (by decide) rfl⟩

/-- The two preset exits of a designed room: the back link to the current
room and the default second exit. -/
def designBackExits (cid : Nat) (cr : Room) : List Exit :=
  [⟨"link", "Back to " ++ cr.title, some cid⟩,
   ⟨"existing_or_new", "Right (mysterious)", none⟩]

/-- The designed room as created by the manual path, before any image
attachment. -/
def designBaseRoom (data : World) (cid : Nat) (p : DesignPrompts) (cr : Room) : Room :=
  { id := data.next_id, title := p.title, description := p.description,
    image := "", coins := p.coins, exits := designBackExits cid cr }

/-- The designed room after the optional image attachment. -/
def designNewRoom (data : World) (cid : Nat) (p : DesignPrompts)
    (imgResult : Option String) (cr : Room) : Room :=
  if p.img_input ≠ "" then
    match imgResult with
    | some saved => { designBaseRoom data cid p cr with image := saved }
    | none => designBaseRoom data cid p cr
  else designBaseRoom data cid p cr

/-- The current room after the design workflow appends its link exit. -/
def designCurRoom (data : World) (cid : Nat) (p : DesignPrompts) (cr : Room) : Room :=
  { cr with exits :=
      if cr.exits.length = 0 then [⟨"link", p.label_for_current_exit, some data.next_id⟩]
      else cr.exits ++ [⟨"link", p.label_for_current_exit, some data.next_id⟩] }

/-- The world midway through the design workflow: the new room is stored
(and possibly image-updated), the current room is not yet relinked. -/
def designMidWorld (data : World) (cid : Nat) (p : DesignPrompts)
    (imgResult : Option String) (cr : Room) : World :=
  let w1 := (({ data with next_id := data.next_id + 1 } : World)).setRoom data.next_id
    (designBaseRoom data cid p cr)
  if p.img_input ≠ "" then
    match imgResult with
    | some _ => w1.setRoom data.next_id (designNewRoom data cid p imgResult cr)
    | none => w1
  else w1

/-- The world at the end of the design workflow. -/
def designWorld (data : World) (cid : Nat) (p : DesignPrompts)
    (imgResult : Option String) (cr : Room) : World :=
  (designMidWorld data cid p imgResult cr).setRoom cid (designCurRoom data cid p cr)

/-- Normal form of the design workflow when the current room exists. -/
theorem design_eq (data : World) (cid : Nat) (p : DesignPrompts)
    (imgResult : Option String) (cr : Room) (hr : data.getRoom cid = some cr) :
    design_room_from_current data cid p imgResult =
      some (designWorld data cid p imgResult cr, designNewRoom data cid p imgResult cr) := by
  show (match data.getRoom cid with
    | none => none
    | some current_room => _) = _
  rw [hr]
  by_cases himg : p.img_input = ""
  · simp [designWorld, designMidWorld, designNewRoom, designBaseRoom, designCurRoom,
      designBackExits, create_manual_room, World.setRoom, himg]
  · cases imgResult with
    | none =>
        simp [designWorld, designMidWorld, designNewRoom, designBaseRoom, designCurRoom,
          designBackExits, create_manual_room, World.setRoom, himg]
    | some saved =>
        simp [designWorld, designMidWorld, designNewRoom, designBaseRoom, designCurRoom,
          designBackExits, create_manual_room, World.setRoom, himg]

/-- The designed room keeps the allocated id through the image step. -/
theorem designNewRoom_id (data : World) (cid : Nat) (p : DesignPrompts)
    (imgResult : Option String) (cr : Room) :
    (designNewRoom data cid p imgResult cr).id = data.next_id := by
  unfold designNewRoom designBaseRoom
  by_cases himg : p.img_input = ""
  · simp [himg]
  · cases imgResult with
    | none => simp [himg]
    | some saved => simp [himg]

/-- The designed room keeps its preset exits through the image step. -/
theorem designNewRoom_exits (data : World) (cid : Nat) (p : DesignPrompts)
    (imgResult : Option String) (cr : Room) :
    (designNewRoom data cid p imgResult cr).exits = designBackExits cid cr := by
  unfold designNewRoom designBaseRoom
  by_cases himg : p.img_input = ""
  · simp [himg]
  · cases imgResult with
    | none => simp [himg]
    | some saved => simp [himg]

/-- The midway world stores the designed room under the allocated id. -/
theorem designMidWorld_getRoom_self (data : World) (cid : Nat) (p : DesignPrompts)
    (imgResult : Option String) (cr : Room) :
    (designMidWorld data cid p imgResult cr).getRoom data.next_id =
      some (designNewRoom data cid p imgResult cr) := by
  unfold designMidWorld designNewRoom
  by_cases himg : p.img_input = ""
  · simp [himg, getRoom_setRoom_self]
  · cases imgResult with
    | none => simp [himg, getRoom_setRoom_self]
    | some saved => simp [himg, getRoom_setRoom_self]

/-- The midway world agrees with the input world away from the allocated
id. -/
theorem designMidWorld_getRoom_ne (data : World) (cid : Nat) (p : DesignPrompts)
    (imgResult : Option String) (cr : Room) (k : Nat) (hk : k ≠ data.next_id) :
    (designMidWorld data cid p imgResult cr).getRoom k = data.getRoom k := by
  unfold designMidWorld
  by_cases himg : p.img_input = ""
  · simp only [himg]
    simp [World.getRoom, World.setRoom]
    exact lookupKey_setKey_ne _ _ _ _ hk
  · cases imgResult with
    | none =>
        simp only [himg]
        simp [World.getRoom, World.setRoom]
        exact lookupKey_setKey_ne _ _ _ _ hk
    | some saved =>
        simp only [himg]
        simp only [World.getRoom, World.setRoom]
        rw [if_pos himg]
        show lookupKey (setKey (setKey data.rooms data.next_id _) data.next_id _) k = _
        rw [lookupKey_setKey_ne _ _ _ _ hk, lookupKey_setKey_ne _ _ _ _ hk]

/-- Claim C5: from a current room with one exit, the design workflow
creates a new room whose first exit is a link back to the current id and
whose second exit has the existing_or_new role, and appends a link exit
targeting the new room onto the current room, raising its exit count from
1 to 2; both mutated rooms are readable from the resulting store. -/
theorem design_room_spec (data : World) (cid : Nat) (p : DesignPrompts)
    (imgResult : Option String) (cr : Room) (pr : World × Room)
    (hr : data.getRoom cid = some cr) (h1 : cr.exits.length = 1)
    (hne : cid ≠ data.next_id)
    (h : design_room_from_current data cid p imgResult = some pr) :
    pr.2.id = data.next_id ∧
    pr.2.exits = [Exit.mk "link" ("Back to " ++ cr.title) (some cid),
                  Exit.mk "existing_or_new" "Right (mysterious)" none] ∧
    pr.1.getRoom cid =
      some { cr with exits :=
        cr.exits ++ [Exit.mk "link" p.label_for_current_exit (some data.next_id)] } ∧
    (cr.exits ++ [Exit.mk "link" p.label_for_current_exit (some data.next_id)]).length = 2 ∧
    pr.1.getRoom data.next_id = some pr.2 := by
  rw [design_eq data cid p imgResult cr hr] at h
  injection h with h
  subst h
  refine ⟨designNewRoom_id data cid p imgResult cr, ?_, ?_, ?_, ?_⟩
  · rw [designNewRoom_exits data cid p imgResult cr]
    rfl
  · rw [designWorld, getRoom_setRoom_self]
    have h0 : cr.exits.length ≠ 0 := by rw [h1]; exact Nat.one_ne_zero
    simp [designCurRoom, h0]
  · rw [List.length_append, h1]
    rfl
  · rw [designWorld, getRoom_setRoom_ne _ _ _ _ (fun hh => hne hh.symm)]
    exact designMidWorld_getRoom_self data cid p imgResult cr

/-- The prompt answers for a concrete design invocation. -/
def sampleDesign : DesignPrompts :=
  { title := "Attic", description := "A dusty attic.", coins := 0,
    label_for_current_exit := "Up the ladder", img_input := "" }

/-- Witness for claim C5: design a room from the one-exit room 0 of a small
world. -/
theorem design_room_spec_witness :
    (design_room_from_current brokenLinkWorld 0 sampleDesign none).isSome = true ∧
    ((design_room_from_current brokenLinkWorld 0 sampleDesign none).getD
        (brokenLinkWorld, brokenLinkRoom)).2.id = brokenLinkWorld.next_id := by
  have h := design_room_spec brokenLinkWorld 0 sampleDesign none brokenLinkRoom
    ((designWorld brokenLinkWorld 0 sampleDesign none brokenLinkRoom,
      designNewRoom brokenLinkWorld 0 sampleDesign none brokenLinkRoom)) rfl (by decide)
    (by decide) (design_eq brokenLinkWorld 0 sampleDesign none brokenLinkRoom rfl)
  rw [design_eq brokenLinkWorld 0 sampleDesign none brokenLinkRoom rfl]
  exact ⟨rfl, h.1⟩

/-- The room produced by a successful AI generation attempt: the special
room on every tenth attempt, else the room built from the provider
content. -/
def aiRoom (w : World) (j : RoomJson) (rnd : AiRandom) (ni : Bool) : Room :=
  if (w.total_generated + 1) % 10 = 0 then computerRoom w.next_id
  else
    { id := w.next_id
      title := j.title.getD ("Room " ++ toString w.next_id)
      description := j.description.getD "An indescribable place."
      image := if !ni && rnd.imgOk then "images/room_" ++ toString w.next_id ++ ".png" else ""
      coins := if rnd.coinFlag then (if rnd.coinTwo then 2 else 1) else 0
      exits := [Exit.mk "home_or_death" (j.exit_label1.getD "Left") none,
                Exit.mk "existing_or_new" (j.exit_label2.getD "Right") none] }

/-- Normal form of a successful AI creation. -/
theorem create_new_room_ai_ok (w : World) (j : RoomJson) (rnd : AiRandom) (ni : Bool) :
    create_new_room_ai w (Except.ok j) rnd ni =
      Except.ok
        ({ next_id := w.next_id + 1, total_generated := w.total_generated + 1,
           start_room := w.start_room,
           rooms := setKey w.rooms w.next_id (aiRoom w j rnd ni) }, aiRoom w j rnd ni) := by
  unfold create_new_room_ai aiRoom
  by_cases hten : (w.total_generated + 1) % 10 = 0
  · simp [hten, World.setRoom]
  · simp [hten, World.setRoom]

/-- Every AI-generated room carries exactly two exits. -/
theorem aiRoom_exits_length (w : World) (j : RoomJson) (rnd : AiRandom) (ni : Bool) :
    (aiRoom w j rnd ni).exits.length = 2 := by
  unfold aiRoom computerRoom
  split
  · rfl
  · rfl

/-- The room produced by the interactive manual path. -/
def manualPromptRoom (w : World) (prompts : ManualPrompts) (imgOk : Bool) : Room :=
  { id := w.next_id, title := prompts.title, description := prompts.description,
    image := if prompts.image_path ≠ "" ∧ imgOk = true then
        "images/room_" ++ toString w.next_id ++ ".png"
      else "",
    coins := prompts.coins,
    exits := [prompts.exit1.toExit, prompts.exit2.toExit] }

/-- Normal form of the interactive manual creation. -/
theorem create_manual_room_none_eq (w : World) (prompts : ManualPrompts) (imgOk : Bool) :
    create_manual_room w none prompts imgOk =
      ({ next_id := w.next_id + 1, total_generated := w.total_generated,
         start_room := w.start_room,
         rooms := setKey w.rooms w.next_id (manualPromptRoom w prompts imgOk) },
       manualPromptRoom w prompts imgOk) := rfl

/-- The room produced by the manual path from a supplied record. -/
def manualSpecRoom (w : World) (m : ManualSpec) (imgOk : Bool) : Room :=
  { id := w.next_id
    title := m.title.getD ("Room " ++ toString w.next_id)
    description := m.description.getD ""
    image := if m.image.getD "" ≠ "" ∧ imgOk = true then
        "images/room_" ++ toString w.next_id ++ ".png"
      else ""
    coins := m.coins.getD 0
    exits := m.exits.getD defaultTwoExits }

/-- Normal form of the manual creation from a supplied record. -/
theorem create_manual_room_some_eq (w : World) (m : ManualSpec)
    (prompts : ManualPrompts) (imgOk : Bool) :
    create_manual_room w (some m) prompts imgOk =
      ({ next_id := w.next_id + 1, total_generated := w.total_generated,
         start_room := w.start_room,
         rooms := setKey w.rooms w.next_id (manualSpecRoom w m imgOk) },
       manualSpecRoom w m imgOk) := rfl

/-- The design workflow bumps the id counter exactly once. -/
theorem designWorld_next_id (data : World) (cid : Nat) (p : DesignPrompts)
    (imgResult : Option String) (cr : Room) :
    (designWorld data cid p imgResult cr).next_id = data.next_id + 1 := by
  unfold designWorld designMidWorld
  by_cases himg : p.img_input = ""
  · simp [himg, World.setRoom]
  · cases imgResult with
    | none => simp [himg, World.setRoom]
    | some saved => simp [himg, World.setRoom]

/-- The design workflow never touches the generation counter. -/
theorem designWorld_total (data : World) (cid : Nat) (p : DesignPrompts)
    (imgResult : Option String) (cr : Room) :
    (designWorld data cid p imgResult cr).total_generated = data.total_generated := by
  unfold designWorld designMidWorld
  by_cases himg : p.img_input = ""
  · simp [himg, World.setRoom]
  · cases imgResult with
    | none => simp [himg, World.setRoom]
    | some saved => simp [himg, World.setRoom]

/-- The room-count invariant on a store: every stored room has one or two
exits. -/
def exitInvL (rs : List (Nat × Room)) : Prop :=
  ∀ q ∈ rs, q.2.exits.length = 1 ∨ q.2.exits.length = 2

/-- The room-count invariant on a world. -/
def exitInv (w : World) : Prop := exitInvL w.rooms

/-- Writing a one-or-two-exit room preserves the invariant. -/
theorem exitInvL_setKey (rs : List (Nat × Room)) (k : Nat) (r : Room)
    (h : exitInvL rs) (hr : r.exits.length = 1 ∨ r.exits.length = 2) :
    exitInvL (setKey rs k r) := by
  intro q hq
  rcases mem_setKey rs k r q hq with hm | hm
  · exact h q hm
  · rw [hm]
    exact hr

/-- The midway design world is one of two explicit stores: the base store
or the base store with the image-updated room rewritten. -/
theorem designMidWorld_cases (data : World) (cid : Nat) (p : DesignPrompts)
    (imgResult : Option String) (cr : Room) :
    designMidWorld data cid p imgResult cr =
      (({ data with next_id := data.next_id + 1 } : World)).setRoom data.next_id
        (designBaseRoom data cid p cr) ∨
    designMidWorld data cid p imgResult cr =
      ((({ data with next_id := data.next_id + 1 } : World)).setRoom data.next_id
        (designBaseRoom data cid p cr)).setRoom data.next_id
          (designNewRoom data cid p imgResult cr) := by
  unfold designMidWorld
  by_cases himg : p.img_input = ""
  · left
    simp [himg]
  · cases imgResult with
    | none =>
        left
        simp [himg]
    | some saved =>
        right
        simp [himg]

/-- The midway design world satisfies the invariant. -/
theorem designMidWorld_exitInv (data : World) (cid : Nat) (p : DesignPrompts)
    (imgResult : Option String) (cr : Room) (hw : exitInv data) :
    exitInv (designMidWorld data cid p imgResult cr) := by
  have hbase : exitInvL (setKey data.rooms data.next_id (designBaseRoom data cid p cr)) :=
    exitInvL_setKey data.rooms data.next_id (designBaseRoom data cid p cr) hw (Or.inr rfl)
  rcases designMidWorld_cases data cid p imgResult cr with hc | hc
  · rw [exitInv, hc]
    exact hbase
  · rw [exitInv, hc]
    show exitInvL (setKey (setKey data.rooms data.next_id (designBaseRoom data cid p cr))
      data.next_id (designNewRoom data cid p imgResult cr))
    refine exitInvL_setKey _ _ _ hbase (Or.inr ?_)
    rw [designNewRoom_exits]
    rfl

/-- The final design world satisfies the invariant when the current room
entered with a single exit. -/
theorem designWorld_exitInv (data : World) (cid : Nat) (p : DesignPrompts)
    (imgResult : Option String) (cr : Room) (hw : exitInv data)
    (hlen : cr.exits.length = 1) :
    exitInv (designWorld data cid p imgResult cr) := by
  unfold designWorld
  apply exitInvL_setKey _ _ _ (designMidWorld_exitInv data cid p imgResult cr hw)
  right
  simp [designCurRoom, hlen]

/-- Overwriting one exit in place preserves the invariant whatever the
index bound check yields. -/
theorem exitInv_link_aux (w : World) (rid : Nat) (room : Room) (i target : Nat)
    (hw : exitInv w) (hm : room.exits.length = 1 ∨ room.exits.length = 2) :
    exitInv (if h : i < room.exits.length then
        w.setRoom rid
          { room with
            exits := room.exits.set i
              { (room.exits.get ⟨i, h⟩) with role := "link", target := some target } }
      else w) := by
  split
  · refine exitInvL_setKey w.rooms rid _ hw ?_
    simpa using hm
  · exact hw

/-- Every operation preserves the one-or-two-exit invariant. -/
theorem exitInv_step (w : World) (op : Op) (hw : exitInv w) : exitInv (step w op) := by
  cases op with
  | opAi tres rnd ni =>
      cases tres with
      | error e => exact hw
      | ok j =>
          show exitInv (match create_new_room_ai w (Except.ok j) rnd ni with
            | Except.ok pr => pr.1
            | Except.error _ => w)
          rw [create_new_room_ai_ok w j rnd ni]
          exact exitInvL_setKey w.rooms w.next_id (aiRoom w j rnd ni) hw
            (Or.inr (aiRoom_exits_length w j rnd ni))
  | opManual prompts imgOk =>
      exact exitInvL_setKey w.rooms w.next_id (manualPromptRoom w prompts imgOk) hw
        (Or.inr rfl)
  | opAdmin p =>
      exact exitInvL_setKey w.rooms w.next_id
        (manualSpecRoom w ⟨some p.title, some p.description, some p.coins_here,
          some [Exit.mk "home_or_death" p.llabel none,
                Exit.mk "existing_or_new" p.rlabel none], none⟩ false) hw (Or.inr rfl)
  | opDesign cid prompts imgResult =>
      show exitInv (match w.getRoom cid with
        | some room =>
            if room.exits.length = 1 then
              match design_room_from_current w cid prompts imgResult with
              | some pr => pr.1
              | none => w
            else w
        | none => w)
      split
      · next room heq =>
          split
          · next hlen =>
              rw [design_eq w cid prompts imgResult room heq]
              show exitInv (designWorld w cid prompts imgResult room)
              exact designWorld_exitInv w cid prompts imgResult room hw hlen
          · exact hw
      · exact hw
  | opPickup rid =>
      show exitInv (coin_pickup_step w rid 0).1
      unfold coin_pickup_step
      split
      · exact hw
      · next room heq =>
          split
          · next hc =>
              exact exitInvL_setKey w.rooms rid { room with coins := 0 } hw
                (hw (rid, room) (mem_of_lookupKey w.rooms rid room heq))
          · exact hw
  | opLink rid ex_two target =>
      show exitInv (link_exits_interactive w rid ex_two target)
      unfold link_exits_interactive
      split
      · exact hw
      · next room heq =>
          have hm := hw (rid, room) (mem_of_lookupKey w.rooms rid room heq)
          split
          · exact exitInv_link_aux w rid room 1 target hw hm
          · exact exitInv_link_aux w rid room 0 target hw hm

/-- The invariant is preserved along every run. -/
theorem exitInv_run (w : World) (ops : List Op) (hw : exitInv w) :
    exitInv (run w ops) := by
  induction ops generalizing w with
  | nil => exact hw
  | cons op ops ih => exact ih (step w op) (exitInv_step w op hw)

/-- Claim C2: along any operation sequence from the default world every
stored room has exactly one or two exits, and a design invocation whose
current room holds exactly one exit leaves that room with exactly two
exits, never more. -/
theorem exit_count_invariant :
    (∀ ops : List Op, exitInv (run defaultWorld ops)) ∧
    (∀ (data : World) (cid : Nat) (p : DesignPrompts) (imgResult : Option String)
        (cr : Room) (pr : World × Room), data.getRoom cid = some cr →
        cr.exits.length = 1 → design_room_from_current data cid p imgResult = some pr →
        ∃ cr2, pr.1.getRoom cid = some cr2 ∧ cr2.exits.length = 2) := by
  constructor
  · intro ops
    refine exitInv_run defaultWorld ops ?_
    show ∀ q ∈ defaultWorld.rooms, q.2.exits.length = 1 ∨ q.2.exits.length = 2
    decide
  · intro data cid p imgResult cr pr hr hlen h
    rw [design_eq data cid p imgResult cr hr] at h
    injection h with h
    subst h
    refine ⟨designCurRoom data cid p cr, ?_, ?_⟩
    · exact getRoom_setRoom_self _ _ _
    · simp [designCurRoom, hlen]

/-- Witness for claim C2: a short concrete run and a concrete design
invocation. -/
theorem exit_count_invariant_witness :
    exitInv (run defaultWorld [Op.opAi (Except.ok plainJson) ⟨false, false, false⟩ true]) ∧
    (∃ cr2, (designWorld brokenLinkWorld 0 sampleDesign none brokenLinkRoom).getRoom 0 =
        some cr2 ∧ cr2.exits.length = 2) :=
  ⟨exit_count_invariant.1 [Op.opAi (Except.ok plainJson) ⟨false, false, false⟩ true],
   exit_count_invariant.2 brokenLinkWorld 0 sampleDesign none brokenLinkRoom
     (designWorld brokenLinkWorld 0 sampleDesign none brokenLinkRoom,
      designNewRoom brokenLinkWorld 0 sampleDesign none brokenLinkRoom)
     rfl (by decide) (design_eq brokenLinkWorld 0 sampleDesign none brokenLinkRoom rfl)⟩

/-- The coin pickup either leaves the world alone or rewrites the entered
room with its coins zeroed. -/
theorem coin_pickup_world_cases (w : World) (rid pc : Nat) :
    (coin_pickup_step w rid pc).1 = w ∨
    ∃ room, w.getRoom rid = some room ∧
      (coin_pickup_step w rid pc).1 = w.setRoom rid { room with coins := 0 } := by
  unfold coin_pickup_step
  split
  · left
    rfl
  · next room heq =>
      split
      · right
        exact ⟨room, heq, rfl⟩
      · left
        rfl

/-- The in-place exit overwrite either leaves the world alone or rewrites
one room with an exit list of unchanged length. -/
theorem link_body_cases (w : World) (rid : Nat) (room : Room) (i target : Nat) :
    (if h : i < room.exits.length then
        w.setRoom rid
          { room with
            exits := room.exits.set i
              { (room.exits.get ⟨i, h⟩) with role := "link", target := some target } }
      else w) = w ∨
    ∃ r2 : Room, r2.exits.length = room.exits.length ∧
      (if h : i < room.exits.length then
        w.setRoom rid
          { room with
            exits := room.exits.set i
              { (room.exits.get ⟨i, h⟩) with role := "link", target := some target } }
      else w) = w.setRoom rid r2 := by
  split
  · next h =>
      right
      exact ⟨_, by simp, rfl⟩
  · left
    rfl

/-- The editor link operation either leaves the world alone or rewrites one
existing room with an exit list of unchanged length. -/
theorem link_exits_world_cases (w : World) (rid : Nat) (ex_two : Bool) (target : Nat) :
    link_exits_interactive w rid ex_two target = w ∨
    ∃ room r2, w.getRoom rid = some room ∧ r2.exits.length = room.exits.length ∧
      link_exits_interactive w rid ex_two target = w.setRoom rid r2 := by
  unfold link_exits_interactive
  split
  · left
    rfl
  · next room heq =>
      split
      · rcases link_body_cases w rid room 1 target with hc | ⟨r2, hlen, hc⟩
        · left
          exact hc
        · right
          exact ⟨room, r2, heq, hlen, hc⟩
      · rcases link_body_cases w rid room 0 target with hc | ⟨r2, hlen, hc⟩
        · left
          exact hc
        · right
          exact ⟨room, r2, heq, hlen, hc⟩

/-- One step bumps the id counter exactly when it creates a room. -/
theorem step_next_id (w : World) (op : Op) :
    (step w op).next_id = if opCreates w op then w.next_id + 1 else w.next_id := by
  cases op with
  | opAi tres rnd ni =>
      cases tres with
      | error e => rfl
      | ok j =>
          show (match create_new_room_ai w (Except.ok j) rnd ni with
            | Except.ok pr => pr.1
            | Except.error _ => w).next_id = _
          rw [create_new_room_ai_ok w j rnd ni]
          rfl
  | opManual prompts imgOk => rfl
  | opAdmin p => rfl
  | opDesign cid prompts imgResult =>
      show (match w.getRoom cid with
        | some room =>
            if room.exits.length = 1 then
              match design_room_from_current w cid prompts imgResult with
              | some pr => pr.1
              | none => w
            else w
        | none => w).next_id = _
      split
      · next room heq =>
          split
          · next hlen =>
              rw [design_eq w cid prompts imgResult room heq]
              show (designWorld w cid prompts imgResult room).next_id = _
              rw [designWorld_next_id]
              simp [opCreates, heq, hlen]
          · next hlen =>
              simp [opCreates, heq, hlen]
      · next heq =>
          simp [opCreates, heq]
  | opPickup rid =>
      show ((coin_pickup_step w rid 0).1).next_id = _
      rcases coin_pickup_world_cases w rid 0 with hc | ⟨room, heq, hc⟩
      · rw [hc]
        rfl
      · rw [hc]
        rfl
  | opLink rid ex_two target =>
      show (link_exits_interactive w rid ex_two target).next_id = _
      rcases link_exits_world_cases w rid ex_two target with hc | ⟨room, r2, heq, hlen, hc⟩
      · rw [hc]
        rfl
      · rw [hc]
        rfl

/-- Claim C3: along any run, the ids assigned to created rooms are strictly
increasing with no repeats, every assigned id is at least the starting
counter and stays below the final counter, and the counter never
decreases. -/
theorem monotonic_ids (w : World) (ops : List Op) :
    List.Pairwise (· < ·) (trace w ops) ∧
    (∀ i ∈ trace w ops, w.next_id ≤ i ∧ i < (run w ops).next_id) ∧
    w.next_id ≤ (run w ops).next_id := by
  induction ops generalizing w with
  | nil =>
      refine ⟨List.Pairwise.nil, ?_, Nat.le_refl _⟩
      intro i hi
      simp [trace] at hi
  | cons op ops ih =>
      obtain ⟨ihp, ihm, ihle⟩ := ih (step w op)
      have hnext := step_next_id w op
      have hrun : run w (op :: ops) = run (step w op) ops := rfl
      by_cases hc : opCreates w op = true
      · have htr : trace w (op :: ops) = w.next_id :: trace (step w op) ops := by
          simp [trace, hc]
        have hstep1 : (step w op).next_id = w.next_id + 1 := by
          rw [hnext, if_pos hc]
        refine ⟨?_, ?_, ?_⟩
        · rw [htr]
          refine List.Pairwise.cons ?_ ihp
          intro i hi
          have hge := (ihm i hi).1
          omega
        · rw [htr, hrun]
          intro i hi
          rcases List.mem_cons.mp hi with h | h
          · subst h
            exact ⟨Nat.le_refl _, by omega⟩
          · have hm := ihm i h
            exact ⟨by omega, hm.2⟩
        · rw [hrun]
          omega
      · have hcf : opCreates w op = false := by
          cases hcc : opCreates w op
          · rfl
          · exact absurd hcc hc
        have htr : trace w (op :: ops) = trace (step w op) ops := by
          simp [trace, hcf]
        have hstep1 : (step w op).next_id = w.next_id := by
          rw [hnext, hcf]
          rfl
        refine ⟨by rw [htr]; exact ihp, ?_, ?_⟩
        · rw [htr, hrun]
          intro i hi
          have hm := ihm i hi
          exact ⟨by omega, hm.2⟩
        · rw [hrun]
          omega

/-- Well-formedness of reachable worlds: every stored key is below the id
counter, so a fresh creation can never overwrite an existing room. -/
def idsBelowNext (w : World) : Prop := ∀ q ∈ w.rooms, q.1 < w.next_id

/-- The room built by the admin path of create_new_room in game.py. -/
def adminRoomOf (w : World) (ar : AdminRoomSpec) : Room :=
  { id := w.next_id
    title := ar.title.getD ("Admin Room " ++ toString w.next_id)
    description := ar.description.getD ""
    image := ""
    coins := ar.coins.getD 0
    exits := ar.exits.getD defaultTwoExits }

/-- Normal form of the admin path of create_new_room: the text provider is
never consulted. -/
theorem create_new_room_admin_eq (w : World) (ar : AdminRoomSpec)
    (tres : Except String RoomJson) (rnd : AiRandom) (ni : Bool) :
    create_new_room w (some ar) tres rnd ni =
      Except.ok ({ next_id := w.next_id + 1, total_generated := w.total_generated,
                   start_room := w.start_room,
                   rooms := setKey w.rooms w.next_id (adminRoomOf w ar) },
                 adminRoomOf w ar) := rfl

/-- Claim C10: manual, admin and design creation leave the generation
counter unchanged while a successful AI creation increments it by exactly
one and a failed one changes nothing; and every creation path preserves all
previously stored room records, except that design rewrites exactly the
current room (with its appended exit). -/
theorem creation_frame (w : World) (hw : idsBelowNext w) :
    (∀ prompts imgOk,
      (step w (Op.opManual prompts imgOk)).total_generated = w.total_generated ∧
      ∀ k r, w.getRoom k = some r →
        (step w (Op.opManual prompts imgOk)).getRoom k = some r) ∧
    (∀ p,
      (step w (Op.opAdmin p)).total_generated = w.total_generated ∧
      ∀ k r, w.getRoom k = some r → (step w (Op.opAdmin p)).getRoom k = some r) ∧
    (∀ ar tres rnd ni pr, create_new_room w (some ar) tres rnd ni = Except.ok pr →
      pr.1.total_generated = w.total_generated ∧
      ∀ k r, w.getRoom k = some r → pr.1.getRoom k = some r) ∧
    (∀ j rnd ni,
      (step w (Op.opAi (Except.ok j) rnd ni)).total_generated = w.total_generated + 1 ∧
      ∀ k r, w.getRoom k = some r →
        (step w (Op.opAi (Except.ok j) rnd ni)).getRoom k = some r) ∧
    (∀ e rnd ni, step w (Op.opAi (Except.error e) rnd ni) = w) ∧
    (∀ cid prompts imgResult,
      (step w (Op.opDesign cid prompts imgResult)).total_generated = w.total_generated ∧
      ∀ k r, k ≠ cid → w.getRoom k = some r →
        (step w (Op.opDesign cid prompts imgResult)).getRoom k = some r) := by
  have hfresh : ∀ k (r : Room), w.getRoom k = some r → k ≠ w.next_id := by
    intro k r h
    exact Nat.ne_of_lt (hw (k, r) (mem_of_lookupKey w.rooms k r h))
  refine ⟨?_, ?_, ?_, ?_, ?_, ?_⟩
  · intro prompts imgOk
    refine ⟨rfl, ?_⟩
    intro k r h
    show lookupKey (setKey w.rooms w.next_id (manualPromptRoom w prompts imgOk)) k = some r
    rw [lookupKey_setKey_ne w.rooms w.next_id k _ (hfresh k r h)]
    exact h
  · intro p
    refine ⟨rfl, ?_⟩
    intro k r h
    show lookupKey (setKey w.rooms w.next_id
      (manualSpecRoom w ⟨some p.title, some p.description, some p.coins_here,
        some [Exit.mk "home_or_death" p.llabel none,
              Exit.mk "existing_or_new" p.rlabel none], none⟩ false)) k = some r
    rw [lookupKey_setKey_ne w.rooms w.next_id k _ (hfresh k r h)]
    exact h
  · intro ar tres rnd ni pr h
    rw [create_new_room_admin_eq] at h
    injection h with h
    subst h
    refine ⟨rfl, ?_⟩
    intro k r h
    show lookupKey (setKey w.rooms w.next_id (adminRoomOf w ar)) k = some r
    rw [lookupKey_setKey_ne w.rooms w.next_id k _ (hfresh k r h)]
    exact h
  · intro j rnd ni
    constructor
    · show (match create_new_room_ai w (Except.ok j) rnd ni with
        | Except.ok pr => pr.1
        | Except.error _ => w).total_generated = w.total_generated + 1
      rw [create_new_room_ai_ok w j rnd ni]
    · intro k r h
      show (match create_new_room_ai w (Except.ok j) rnd ni with
        | Except.ok pr => pr.1
        | Except.error _ => w).getRoom k = some r
      rw [create_new_room_ai_ok w j rnd ni]
      show lookupKey (setKey w.rooms w.next_id (aiRoom w j rnd ni)) k = some r
      rw [lookupKey_setKey_ne w.rooms w.next_id k _ (hfresh k r h)]
      exact h
  · intro e rnd ni
    rfl
  · intro cid prompts imgResult
    constructor
    · show (match w.getRoom cid with
        | some room =>
            if room.exits.length = 1 then
              match design_room_from_current w cid prompts imgResult with
              | some pr => pr.1
              | none => w
            else w
        | none => w).total_generated = w.total_generated
      split
      · next room heq =>
          split
          · next hlen =>
              rw [design_eq w cid prompts imgResult room heq]
              show (designWorld w cid prompts imgResult room).total_generated = _
              exact designWorld_total w cid prompts imgResult room
          · rfl
      · rfl
    · intro k r hkc h
      show (match w.getRoom cid with
        | some room =>
            if room.exits.length = 1 then
              match design_room_from_current w cid prompts imgResult with
              | some pr => pr.1
              | none => w
            else w
        | none => w).getRoom k = some r
      split
      · next room heq =>
          split
          · next hlen =>
              rw [design_eq w cid prompts imgResult room heq]
              show (designWorld w cid prompts imgResult room).getRoom k = some r
              rw [designWorld, getRoom_setRoom_ne _ _ _ _ hkc,
                designMidWorld_getRoom_ne w cid prompts imgResult room k (hfresh k r h)]
              exact h
          · exact h
      · exact h

/-- Interactive prompt answers for a concrete manual creation. -/
def sampleManual : ManualPrompts :=
  { title := "Editor Room", description := "Made in the editor.", coins := 0,
    exit1 := ⟨RoleChoice.home_or_death, "Left", 0⟩,
    exit2 := ⟨RoleChoice.existing_or_new, "Right", 0⟩,
    image_path := "" }

/-- Witness for claim C10 at the default world. -/
theorem creation_frame_witness :
    ((step defaultWorld (Op.opManual sampleManual true)).total_generated =
        defaultWorld.total_generated ∧
      (step defaultWorld (Op.opManual sampleManual true)).getRoom 0 = some firstChamber) ∧
    (step defaultWorld (Op.opAi (Except.ok plainJson) ⟨false, false, false⟩
      true)).total_generated = defaultWorld.total_generated + 1 := by
  have h := creation_frame defaultWorld
    (show ∀ q ∈ defaultWorld.rooms, q.1 < defaultWorld.next_id by decide)
  exact ⟨⟨(h.1 sampleManual true).1, (h.1 sampleManual true).2 0 firstChamber rfl⟩,
    (h.2.2.2.1 plainJson ⟨false, false, false⟩ true).1⟩

end PortalGame
